import Mathlib

/-!
Verification development for the flightbox passive-causality tracer.

The definitions below are a shallow embedding of the runtime and query-side
code: the bounded serializer (`packages/core/src/serializer.ts`), the span
lifecycle (`packages/core/src/span.ts`), the lineage propagation protocol and
the wrap factory (`packages/sdk/src/causality.ts` via `config.ts`), the
browser cooperative context stack (`packages/sdk/src/browser.ts`), the flush
buffer (`packages/sdk/src/buffer.ts`), and the entity-timeline diff and
oscillation queries (`packages/mcp-server/src/tools.ts`).

JavaScript values are modelled as a tree of primitives plus references into a
finite heap of arrays and plain string-keyed objects, so that shared and
cyclic structures are expressible.  Numbers are modelled as integers, host
identifier/time sources (`nanoid`, `Date.now`) are explicit parameters, and
JSON text stored in a span is modelled through an explicit JSON value type.
-/

namespace Flightbox

/-- Serializer limits, `SerializerOptions` with the defaults of
`DEFAULT_OPTIONS` filled in (`Required<SerializerOptions>`). -/
structure SerOpts where
  maxDepth : Nat
  maxBreadth : Nat
  maxStringLength : Nat
  maxReprLength : Nat
deriving DecidableEq

/-- `DEFAULT_OPTIONS` of the serializer. -/
def defaultOptions : SerOpts :=
  { maxDepth := 5, maxBreadth := 10, maxStringLength := 512, maxReprLength := 200 }

mutual
/-- A JavaScript value of the fragment the tracer serializes: primitives plus
a reference into a heap of compound objects.  References make shared and
self-referential (cyclic) values expressible, as in the host language. -/
inductive JsVal where
  | vnull
  | vundef
  | vbool (b : Bool)
  | vnum (n : Int)
  | vstr (s : String)
  | vref (id : Nat)

/-- A compound JavaScript object: an array or a plain string-keyed object
(`Object.keys` enumeration order is the field-list order). -/
inductive JsObj where
  | arr (elems : List JsVal)
  | obj (fields : List (String × JsVal))
end

/-- The object heap: a finite association of object identities to contents.
Reference identity (`WeakSet` membership, `===`) is identity of the `Nat` id. -/
abbrev Heap := List (Nat × JsObj)

mutual
/-- The value tree produced by `serializeValue` before `JSON.stringify`:
the bounded rendering of a `JsVal`. -/
inductive Rendered where
  | rnull
  | rundef
  | rbool (b : Bool)
  | rnum (n : Int)
  | rstr (s : String)
  | rarr (xs : RArr)
  | robj (fs : RFields)
deriving DecidableEq

/-- Spine of a rendered array. -/
inductive RArr where
  | nil
  | cons (hd : Rendered) (tl : RArr)
deriving DecidableEq

/-- Spine of a rendered plain object (key/value fields in insertion order). -/
inductive RFields where
  | nil
  | cons (key : String) (val : Rendered) (tl : RFields)
deriving DecidableEq
end

/-- Append one element at the end of a rendered array (`items.push(...)`). -/
def RArr.snoc : RArr → Rendered → RArr
  | .nil, r => .cons r .nil
  | .cons h t, r => .cons h (t.snoc r)

/-- Append one field at the end of a rendered object (`result[k] = v` on a
fresh key). -/
def RFields.snoc : RFields → String → Rendered → RFields
  | .nil, k, v => .cons k v .nil
  | .cons k0 v0 t, k, v => .cons k0 v0 (t.snoc k v)

/-- Number of members of a rendered array. -/
def RArr.length : RArr → Nat
  | .nil => 0
  | .cons _ t => 1 + t.length

/-- Number of fields of a rendered object. -/
def RFields.length : RFields → Nat
  | .nil => 0
  | .cons _ _ t => 1 + t.length

/-- `truncate(str, maxLen)`: cut to `maxLen` and append the truncation
marker when the string is longer. -/
def truncate (str : String) (maxLen : Nat) : String :=
  if maxLen < str.length then str.take maxLen ++ "..." else str

/-- One character of the ECMA-262 `JSON.stringify` string escaping. -/
def escapeJsonChar (c : Char) : String :=
  if c = '"' then "\\\""
  else if c = '\\' then "\\\\"
  else if c = '\n' then "\\n"
  else if c = '\t' then "\\t"
  else if c = '\r' then "\\r"
  else if c = Char.ofNat 8 then "\\b"
  else if c = Char.ofNat 12 then "\\f"
  else if c.toNat < 32 then
    "\\u00" ++ String.singleton (Char.ofNat (if c.toNat / 16 < 10 then 48 + c.toNat / 16 else 87 + c.toNat / 16))
      ++ String.singleton (Char.ofNat (if c.toNat % 16 < 10 then 48 + c.toNat % 16 else 87 + c.toNat % 16))
  else String.singleton c

/-- ECMA-262 `JSON.stringify` rendering of a string literal, quotes included. -/
def escapeJsonString (s : String) : String :=
  "\"" ++ String.join (s.toList.map escapeJsonChar) ++ "\""

/-- Helper for `rawStringify` over array members: an element whose
stringification is `undefined` renders as `null` inside an array. -/
def rawStringifyElems (f : JsVal → Except Unit (Option String)) :
    List JsVal → Except Unit (List String)
  | [] => .ok []
  | e :: es => do
    let r ← f e
    let rs ← rawStringifyElems f es
    .ok ((r.getD "null") :: rs)

/-- Helper for `rawStringify` over object fields: a field whose
stringification is `undefined` is omitted. -/
def rawStringifyFields (f : JsVal → Except Unit (Option String)) :
    List (String × JsVal) → Except Unit (List String)
  | [] => .ok []
  | (k, v) :: rest => do
    let r ← f v
    let rs ← rawStringifyFields f rest
    match r with
    | none => .ok rs
    | some s => .ok ((escapeJsonString k ++ ":" ++ s) :: rs)

/-- The host `JSON.stringify` applied to a raw heap value, as used by
`safeRepr`: `.error` models the exception raised on a circular structure,
`.ok none` models an `undefined` result.  The fuel argument only serves
Lean's termination; a finite JavaScript heap bounds every acyclic path by
the heap size, and any longer path repeats an id and is caught by `seen`. -/
def rawStringify (h : Heap) : Nat → JsVal → List Nat → Except Unit (Option String)
  | _, .vnull, _ => .ok (some "null")
  | _, .vundef, _ => .ok none
  | _, .vbool b, _ => .ok (some (cond b "true" "false"))
  | _, .vnum n, _ => .ok (some (toString n))
  | _, .vstr s, _ => .ok (some (escapeJsonString s))
  | fuel, .vref id, seen =>
    if id ∈ seen then .error ()
    else
      match fuel with
      | 0 => .error ()
      | fu + 1 =>
        match h.lookup id with
        | none => .ok (some "null")
        | some (.arr elems) => do
          let parts ← rawStringifyElems (fun e => rawStringify h fu e (id :: seen)) elems
          .ok (some ("[" ++ String.intercalate "," parts ++ "]"))
        | some (.obj fields) => do
          let parts ← rawStringifyFields (fun v => rawStringify h fu v (id :: seen)) fields
          .ok (some ("\x7b" ++ String.intercalate "," parts ++ "\x7d"))

/-- `safeRepr(obj)`: `JSON.stringify` of the raw object, falling back to the
host `String(obj)` conversion when stringification fails (cyclic value),
modelled as the default object rendering. -/
def safeRepr (h : Heap) (id : Nat) : String :=
  match rawStringify h (h.length + 1) (.vref id) [] with
  | .ok (some s) => s
  | .ok none => "[object Object]"
  | .error _ => "[object Object]"

/-- Serialize the members of an array in order, threading the mutated `seen`
set through the recursion (`obj.slice(0, maxBreadth).map(...)` with the
shared `WeakSet`). -/
def serializeElems (f : JsVal → List Nat → Rendered × List Nat) :
    List JsVal → List Nat → RArr × List Nat
  | [], seen => (.nil, seen)
  | e :: es, seen =>
    let (r, s1) := f e seen
    let (rs, s2) := serializeElems f es s1
    (.cons r rs, s2)

/-- Serialize the fields of a plain object in key order, threading `seen`. -/
def serializeFields (f : JsVal → List Nat → Rendered × List Nat) :
    List (String × JsVal) → List Nat → RFields × List Nat
  | [], seen => (.nil, seen)
  | (k, v) :: rest, seen =>
    let (r, s1) := f v seen
    let (rs, s2) := serializeFields f rest s1
    (.cons k r rs, s2)

/-- `serializeValue(value, depth, opts, seen)` of the serializer.  The `seen`
identity set is threaded in and out exactly as the mutated `WeakSet` is: an
id is added on entering a compound object and removed (`seen.delete`) only on
the array/object exits — the depth-collapse return keeps it, as in the
source.  A dangling reference renders as `null`; it has no JavaScript
counterpart (every reference of a real heap is backed). -/
def serializeValue (h : Heap) (opts : SerOpts) :
    Nat → JsVal → List Nat → Rendered × List Nat
  | _, .vnull, seen => (.rnull, seen)
  | _, .vundef, seen => (.rundef, seen)
  | _, .vbool b, seen => (.rbool b, seen)
  | _, .vnum n, seen => (.rnum n, seen)
  | _, .vstr s, seen =>
    (if opts.maxStringLength < s.length
      then .rstr (s.take opts.maxStringLength ++ "...")
      else .rstr s, seen)
  | depth, .vref id, seen =>
    if id ∈ seen then (.rstr "<circular>", seen)
    else
      let seen1 := id :: seen
      match h.lookup id with
      | none => (.rnull, seen1)
      | some o =>
        match depth with
        | 0 => (.rstr (truncate (safeRepr h id) opts.maxReprLength), seen1)
        | d + 1 =>
          match o with
          | .arr elems =>
            let (items, seen2) := serializeElems (serializeValue h opts d) (elems.take opts.maxBreadth) seen1
            let items :=
              if opts.maxBreadth < elems.length then
                items.snoc (.rstr ("... " ++ toString (elems.length - opts.maxBreadth) ++ " more"))
              else items
            (.rarr items, seen2.erase id)
          | .obj fields =>
            let (flds, seen2) := serializeFields (serializeValue h opts d) (fields.take opts.maxBreadth) seen1
            let flds :=
              if opts.maxBreadth < fields.length then
                flds.snoc ("... " ++ toString (fields.length - opts.maxBreadth) ++ " more") (.rstr "...")
              else flds
            (.robj flds, seen2.erase id)

mutual
/-- ECMA-262 `JSON.stringify` applied to a rendered tree (the value
`serializeValue` returns): `undefined` members render as `null` inside
arrays and are skipped inside objects. -/
def jsStringifyStr : Rendered → String
  | .rnull => "null"
  | .rundef => "null"
  | .rbool b => cond b "true" "false"
  | .rnum n => toString n
  | .rstr s => escapeJsonString s
  | .rarr xs => "[" ++ String.intercalate "," (jsStringifyList xs) ++ "]"
  | .robj fs => "\x7b" ++ String.intercalate "," (jsStringifyFields fs) ++ "\x7d"

/-- Array members of `jsStringifyStr`. -/
def jsStringifyList : RArr → List String
  | .nil => []
  | .cons hd tl => jsStringifyStr hd :: jsStringifyList tl

/-- Object fields of `jsStringifyStr`; fields holding `undefined` are
omitted, as `JSON.stringify` does. -/
def jsStringifyFields : RFields → List String
  | .nil => []
  | .cons k v tl =>
    if v = .rundef then jsStringifyFields tl
    else (escapeJsonString k ++ ":" ++ jsStringifyStr v) :: jsStringifyFields tl
end

/-- Top-level `JSON.stringify`: `undefined` input yields no string (the JS
call returns `undefined`; unreachable from `serialize`, which filters the
only value `serializeValue` renders as `undefined`). -/
def jsStringify : Rendered → Option String
  | .rundef => none
  | r => some (jsStringifyStr r)

/-- `serialize(value, options)` of `packages/core/src/serializer.ts`: absent
input yields `null`; otherwise the bounded rendering is stringified.  The
source wraps the stringification in try/catch, but the rendered tree is
finite and bigint-free, so the catch arm is unreachable. -/
def serialize (h : Heap) (value : JsVal) (opts : SerOpts) : Option String :=
  match value with
  | .vundef => none
  | v => jsStringify (serializeValue h opts opts.maxDepth v []).1

mutual
/-- A JSON value, the codomain of `JSON.parse` and the domain of canonical
JSON rendering.  Persisted span fields are either absent or JSON text. -/
inductive Json where
  | jnull
  | jbool (b : Bool)
  | jnum (n : Int)
  | jstr (s : String)
  | jarr (xs : JArr)
  | jobj (fs : JFields)
deriving DecidableEq

/-- Spine of a JSON array. -/
inductive JArr where
  | nil
  | cons (hd : Json) (tl : JArr)
deriving DecidableEq

/-- Spine of a JSON object (fields in order). -/
inductive JFields where
  | nil
  | cons (key : String) (val : Json) (tl : JFields)
deriving DecidableEq
end

/-- First-match field lookup on a JSON object (property access). -/
def jfLookup : JFields → String → Option Json
  | .nil, _ => none
  | .cons k v tl, key => if k = key then some v else jfLookup tl key

/-- Field keys of a JSON object, in order. -/
def jfKeys : JFields → List String
  | .nil => []
  | .cons k _ tl => k :: jfKeys tl

mutual
/-- Canonical rendering of a JSON value as JSON text. -/
def renderJson : Json → String
  | .jnull => "null"
  | .jbool b => cond b "true" "false"
  | .jnum n => toString n
  | .jstr s => escapeJsonString s
  | .jarr xs => "[" ++ String.intercalate "," (renderJsonList xs) ++ "]"
  | .jobj fs => "\x7b" ++ String.intercalate "," (renderJsonFields fs) ++ "\x7d"

/-- Array members of `renderJson`. -/
def renderJsonList : JArr → List String
  | .nil => []
  | .cons hd tl => renderJson hd :: renderJsonList tl

/-- Object fields of `renderJson`. -/
def renderJsonFields : JFields → List String
  | .nil => []
  | .cons k v tl => (escapeJsonString k ++ ":" ++ renderJson v) :: renderJsonFields tl
end

mutual
/-- The JSON value a rendered tree stringifies to: `undefined` becomes
`null` (its array-position rendering) and object fields holding `undefined`
are dropped, mirroring `JSON.stringify`. -/
def rendToJson : Rendered → Json
  | .rnull => .jnull
  | .rundef => .jnull
  | .rbool b => .jbool b
  | .rnum n => .jnum n
  | .rstr s => .jstr s
  | .rarr xs => .jarr (rendToJsonList xs)
  | .robj fs => .jobj (rendToJsonFields fs)

/-- Array members of `rendToJson`. -/
def rendToJsonList : RArr → JArr
  | .nil => .nil
  | .cons hd tl => .cons (rendToJson hd) (rendToJsonList tl)

/-- Object fields of `rendToJson`, dropping `undefined`-valued fields. -/
def rendToJsonFields : RFields → JFields
  | .nil => .nil
  | .cons k v tl =>
    if v = .rundef then rendToJsonFields tl
    else .cons k (rendToJson v) (rendToJsonFields tl)
end

-- ── Span model (packages/core/src/span.ts, types.ts) ──────────────────

/-- The active `(trace_id, span_id)` pair carried by context propagation. -/
structure SpanContext where
  trace_id : String
  span_id : String
deriving DecidableEq

/-- `SpanMeta`: the static call-site description the rewriter passes to
`wrap`. -/
structure SpanMeta where
  name : String
  module : String
  line : Nat
  kind : Option String := none
deriving DecidableEq

/-- One recorded domain-object mutation (`EntityEvent` of `causality.ts`).
The `dimensions` bag is modelled as ordered key/value pairs. -/
structure EntityEvent where
  action : String
  entity_type : String
  entity_id : Option String := none
  snapshot : Option (Option String) := none
  changes : Option (Option String) := none
  note : Option String := none
  dimensions : Option (List (String × Json)) := none
  atTime : Int := 0
deriving DecidableEq

/-- Evidence grading of a lineage record. -/
inductive EvidenceKind where
  | exact
  | inferred
  | gap
deriving DecidableEq

/-- `LineagePayload`: one cross-boundary causality stamp. -/
structure LineagePayload where
  trace_id : String
  span_id : String
  subject_type : String
  subject_id : Option String := none
  actor_system : String
  hop : Int
  max_hops : Int
  blast_scope_id : Option String := none
deriving DecidableEq

/-- `LineageRecord`: a stamp as stored, with receipt time and evidence. -/
structure LineageRecord where
  payload : LineagePayload
  atTime : Int
  evidence_kind : EvidenceKind
deriving DecidableEq

/-- The span `tags` bag.  The source stores it as JSON text re-parsed by
`parseTags`; it is modelled as the structured record the three accumulator
stores read and write through disjoint keys. -/
structure Tags where
  entities : List EntityEvent := []
  lineage_send : List LineageRecord := []
  lineage_recv : List LineageRecord := []
  blast_scope_id : Option String := none
deriving DecidableEq

/-- `parseTags`: absent or unreadable tags parse to the empty record. -/
def parseTags : Option Tags → Tags
  | none => {}
  | some t => t

/-- The `Span` record of `packages/core/src/types.ts`. -/
structure Span where
  span_id : String
  trace_id : String
  parent_id : Option String
  kind : String
  name : String
  module : String
  file_line : String
  input : Option String
  output : Option String
  error : Option String
  started_at : Int
  ended_at : Option Int
  duration_ms : Option Int
  git_sha : Option String
  tags : Option Tags
deriving DecidableEq

/-- `createSpan(meta, parent, args)`: open a span.  The host id generators
(`spanId()`, `traceId()`) and clock (`Date.now()`) are the explicit
arguments `sid`, `freshTid` and `now`; `args` is the arguments array value
serialized into `input`. -/
def createSpan (h : Heap) (meta : SpanMeta) (parent : Option SpanContext)
    (args : JsVal) (sid : String) (freshTid : String) (now : Int) : Span :=
  { span_id := sid
    trace_id := match parent with | some p => p.trace_id | none => freshTid
    parent_id := parent.map (fun p => p.span_id)
    kind := meta.kind.getD "function"
    name := meta.name
    module := meta.module
    file_line := meta.module ++ ":" ++ toString meta.line
    input := serialize h args defaultOptions
    output := none
    error := none
    started_at := now
    ended_at := none
    duration_ms := none
    git_sha := none
    tags := none }

/-- `completeSpan(span, result)`: finalize a successful call, stamping the
end time and serializing the result into `output`. -/
def completeSpan (h : Heap) (s : Span) (result : JsVal) (now : Int) : Span :=
  { s with
    ended_at := some now
    duration_ms := some (now - s.started_at)
    output := serialize h result defaultOptions }

/-- `failSpan(span, err)`: finalize a failed call, stamping the end time and
serializing the thrown value into `error`. -/
def failSpan (h : Heap) (s : Span) (err : JsVal) (now : Int) : Span :=
  { s with
    ended_at := some now
    duration_ms := some (now - s.started_at)
    error := serialize h err defaultOptions }

-- ── Lineage store & propagation (packages/sdk/src/causality.ts) ───────

/-- Update an association list at a key, replacing an existing entry in
place or appending a new one (a `Map.set`). -/
def setEntry {α : Type} : List (String × α) → String → α → List (String × α)
  | [], k, v => [(k, v)]
  | (k0, v0) :: rest, k, v =>
    if k0 = k then (k, v) :: rest else (k0, v0) :: setEntry rest k v

/-- Remove the entry at a key, if present (a `Map.delete`). -/
def delEntry {α : Type} : List (String × α) → String → List (String × α)
  | [], _ => []
  | (k0, v0) :: rest, k =>
    if k0 = k then rest else (k0, v0) :: delEntry rest k

/-- The per-span sent/received lists of the lineage store. -/
structure SpanLineage where
  lineage_send : List LineageRecord := []
  lineage_recv : List LineageRecord := []
deriving DecidableEq

/-- State of `createLineageStore()`: recv/send buckets, actor identities and
accumulated inbound hop counts, all keyed by span id. -/
structure LinState where
  buckets : List (String × SpanLineage) := []
  actors : List (String × String) := []
  inboundHop : List (String × Int) := []
deriving DecidableEq

/-- `beginTracking(spanId, actorSystem)` of the lineage store. -/
def linBeginTracking (st : LinState) (spanId actorSystem : String) : LinState :=
  { st with
    buckets := setEntry st.buckets spanId {}
    actors := setEntry st.actors spanId actorSystem }

/-- `recordRecv(spanId, payload, evidenceKind)`: append to the span's
received list; a missing bucket makes it a no-op. -/
def recordRecv (st : LinState) (spanId : String) (payload : LineagePayload)
    (evidenceKind : EvidenceKind) (now : Int) : LinState :=
  match st.buckets.lookup spanId with
  | none => st
  | some b =>
    { st with
      buckets := setEntry st.buckets spanId
        { b with lineage_recv := b.lineage_recv ++ [⟨payload, now, evidenceKind⟩] } }

/-- `recordSend(spanId, payload)`: append to the span's sent list with
evidence `exact`; a missing bucket makes it a no-op. -/
def recordSend (st : LinState) (spanId : String) (payload : LineagePayload)
    (now : Int) : LinState :=
  match st.buckets.lookup spanId with
  | none => st
  | some b =>
    { st with
      buckets := setEntry st.buckets spanId
        { b with lineage_send := b.lineage_send ++ [⟨payload, now, .exact⟩] } }

/-- `getActorSystem(spanId)`, defaulting to "unknown". -/
def getActorSystem (st : LinState) (spanId : String) : String :=
  (st.actors.lookup spanId).getD "unknown"

/-- `getInboundHop(spanId)`, defaulting to 0. -/
def getInboundHop (st : LinState) (spanId : String) : Int :=
  (st.inboundHop.lookup spanId).getD 0

/-- `setInboundHop(spanId, hop)`. -/
def setInboundHop (st : LinState) (spanId : String) (hop : Int) : LinState :=
  { st with inboundHop := setEntry st.inboundHop spanId hop }

/-- `finalizeTracking(span)` of the lineage store: drop the per-span state
and, when anything was recorded, append the sent/received lists into the
span's tags under their own keys. -/
def linFinalizeTracking (st : LinState) (span : Span) : LinState × Span :=
  let bucket := st.buckets.lookup span.span_id
  let st :=
    { st with
      buckets := delEntry st.buckets span.span_id
      actors := delEntry st.actors span.span_id
      inboundHop := delEntry st.inboundHop span.span_id }
  match bucket with
  | none => (st, span)
  | some b =>
    if b.lineage_send = [] ∧ b.lineage_recv = [] then (st, span)
    else
      let t := parseTags span.tags
      let t2 : Tags :=
        { t with
          lineage_send := t.lineage_send ++ b.lineage_send
          lineage_recv := t.lineage_recv ++ b.lineage_recv }
      (st, { span with tags := some t2 })

/-- The lineage slice of the SDK configuration. -/
structure LineageCfg where
  maxHops : Int
  requireBlastScope : Bool
  messageKey : String
deriving DecidableEq

/-- The configuration slice `createLineageHelpers` reads
(`CausalityConfig`). -/
structure CausCfg where
  enabled : Bool
  blastScopeId : Option String := none
  gitSha : Option String := none
  entityTypes : List String := []
  lineage : LineageCfg
deriving DecidableEq

/-- `parseLineage(payload, key)`: validation of an inbound stamp.  All
fields must be present and well-typed — non-empty trace/span/actor strings,
`hop ≥ 0`, `max_hops ≥ 1`, a subject record with a non-empty type, and a
blast-scope id that is absent, null or a string; any violation yields no
record. -/
def parseLineage (payload : Json) (key : String) : Option LineagePayload :=
  match payload with
  | .jobj fields =>
    match jfLookup fields key with
    | some (.jobj raw) =>
      match jfLookup raw "trace_id", jfLookup raw "span_id",
            jfLookup raw "actor_system", jfLookup raw "hop",
            jfLookup raw "max_hops", jfLookup raw "subject_entity" with
      | some (.jstr traceId), some (.jstr spanId), some (.jstr actorSystem),
        some (.jnum hop), some (.jnum maxHops), some (.jobj subject) =>
        if traceId.length = 0 then none
        else if spanId.length = 0 then none
        else if actorSystem.length = 0 then none
        else if hop < 0 then none
        else if maxHops < 1 then none
        else
          match jfLookup raw "blast_scope_id" with
          | some (.jstr bsid) => parseLineageSubject traceId spanId actorSystem hop maxHops (some bsid) subject
          | some .jnull => parseLineageSubject traceId spanId actorSystem hop maxHops none subject
          | none => parseLineageSubject traceId spanId actorSystem hop maxHops none subject
          | some _ => none
      | _, _, _, _, _, _ => none
    | _ => none
  | _ => none
where
  /-- The subject-entity checks of `parseLineage`: a non-empty `type` string
  and an `id` that is absent, null or a string. -/
  parseLineageSubject (traceId spanId actorSystem : String) (hop maxHops : Int)
      (bsid : Option String) (subject : JFields) : Option LineagePayload :=
    match jfLookup subject "type" with
    | some (.jstr ty) =>
      if ty.length = 0 then none
      else
        match jfLookup subject "id" with
        | some (.jstr sid) =>
          some { trace_id := traceId, span_id := spanId, subject_type := ty,
                 subject_id := some sid, actor_system := actorSystem,
                 hop := hop, max_hops := maxHops, blast_scope_id := bsid }
        | some .jnull =>
          some { trace_id := traceId, span_id := spanId, subject_type := ty,
                 subject_id := none, actor_system := actorSystem,
                 hop := hop, max_hops := maxHops, blast_scope_id := bsid }
        | none =>
          some { trace_id := traceId, span_id := spanId, subject_type := ty,
                 subject_id := none, actor_system := actorSystem,
                 hop := hop, max_hops := maxHops, blast_scope_id := bsid }
        | some _ => none
    | _ => none

/-- `runWithLineage(payload, fn, opts)`.  The first component of the result
is the context `fn` is invoked under: the ambient context unchanged, or —
when a valid record within its hop budget was found — the sender's
`(trace_id, span_id)` injected around `fn`.  The second component is the
lineage-store state after the pre-invocation mutations.  `active` is
`provider.extract()`. -/
def runWithLineage (cfg : CausCfg) (active : Option SpanContext)
    (payload : Json) (optKey : Option String) (st : LinState) (now : Int) :
    Option SpanContext × LinState :=
  let key := optKey.getD cfg.lineage.messageKey
  let hasLineageKey :=
    match payload with
    | .jobj fs => (jfLookup fs key).isSome
    | _ => false
  match parseLineage payload key with
  | none =>
    match active with
    | some a =>
      if hasLineageKey then
        (some a, recordRecv st a.span_id
          { trace_id := a.trace_id, span_id := a.span_id,
            subject_type := "UNKNOWN", subject_id := none,
            actor_system := getActorSystem st a.span_id,
            hop := 0, max_hops := cfg.lineage.maxHops,
            blast_scope_id := cfg.blastScopeId } .gap now)
      else (some a, st)
    | none => (none, st)
  | some lineage =>
    if lineage.max_hops ≤ lineage.hop then
      match active with
      | some a => (active, recordRecv st a.span_id lineage .gap now)
      | none => (active, st)
    else
      let st :=
        match active with
        | some a =>
          recordRecv (setInboundHop st a.span_id (lineage.hop + 1)) a.span_id lineage .exact now
        | none => st
      (some { trace_id := lineage.trace_id, span_id := lineage.span_id }, st)

-- ── Wrap factory (createWrap of packages/sdk/src/causality.ts) ────────

/-- What calling the wrapped callable can observably do: return a plain
value synchronously, return a thenable that later settles (fulfils or
rejects), or throw synchronously.  Thenables are compared by their eventual
settlement, the observable the promise branch of the wrap preserves. -/
inductive CallResult where
  | ret (v : JsVal)
  | promise (p : Except JsVal JsVal)
  | thrown (e : JsVal)

/-- A wrapped callable: its `name` and declared arity (`length`), whether it
is a (possibly async) generator function, and its behavior as a pure
function of receiver (`this`) and the arguments array. -/
structure JsFunc where
  name : String
  length : Nat
  isGenerator : Bool
  call : JsVal → JsVal → CallResult

/-- State of `createEntityStore()`: the per-span event lists. -/
abbrev EntState := List (String × List EntityEvent)

/-- `beginTracking(spanId)` of the entity store. -/
def entBeginTracking (st : EntState) (spanId : String) : EntState :=
  setEntry st spanId []

/-- `finalizeTracking(span)` of the entity store: drop the per-span list
and, when non-empty, append it into `span.tags.entities` (append, never
overwrite). -/
def entFinalizeTracking (st : EntState) (span : Span) : EntState × Span :=
  let events := st.lookup span.span_id
  let st := delEntry st span.span_id
  match events with
  | none => (st, span)
  | some [] => (st, span)
  | some evs =>
    let t := parseTags span.tags
    (st, { span with tags := some { t with entities := t.entities ++ evs } })

/-- `stampBlastScope(span, blastScopeId)`: record the blast scope into the
span's tags when one is configured. -/
def stampBlastScope (span : Span) (blastScopeId : Option String) : Span :=
  match blastScopeId with
  | none => span
  | some b =>
    let t := parseTags span.tags
    { span with tags := some { t with blast_scope_id := some b } }

/-- The mutable tracer state a wrapped call touches: the two per-span
accumulator stores and the flush buffer of finalized spans.  The Node
runtime instantiates `createWrap` without an annotation store, so none is
modelled. -/
structure TraceState where
  entity : EntState := []
  lineage : LinState := {}
  buffered : List Span := []
deriving DecidableEq

/-- The host-supplied inputs of one wrapped call: the generated ids, the
clock readings at open and at settlement, the value heap, and the parent
context `provider.extract()` returns. -/
structure HostEnv where
  sid : String
  tid : String
  startNow : Int
  endNow : Int
  heap : Heap
  parent : Option SpanContext

/-- Finalization common to every settlement path of the wrap: finalize the
entity and lineage accumulators into the finalized span and buffer it. -/
def finalizeAndBuffer (st : TraceState) (span : Span) : TraceState :=
  let (ent, span) := entFinalizeTracking st.entity span
  let (lin, span) := linFinalizeTracking st.lineage span
  { entity := ent, lineage := lin, buffered := st.buffered ++ [span] }

/-- The body of the function `createWrap` returns (`__flightbox_wrap`
applied to `fn` and `meta`), called at receiver `recv` and arguments array
`args`.  Yields the observable call result and the tracer state after the
wrap's own effects; a disabled configuration calls straight through.  The
ambient context provider is the Node task-local carrier, whose `inject`
returns its thunk's outcome unchanged. -/
def wrapCall (cfg : CausCfg) (f : JsFunc) (meta : SpanMeta) (env : HostEnv)
    (recv : JsVal) (args : JsVal) (st : TraceState) : CallResult × TraceState :=
  if ¬ cfg.enabled then (f.call recv args, st)
  else
    let span := createSpan env.heap meta env.parent args env.sid env.tid env.startNow
    let span := { span with git_sha := cfg.gitSha }
    let span := stampBlastScope span cfg.blastScopeId
    let st :=
      { st with
        entity := entBeginTracking st.entity span.span_id
        lineage := linBeginTracking st.lineage span.span_id (span.module ++ "#" ++ span.name) }
    match f.call recv args with
    | .ret v =>
      if f.isGenerator then
        (.ret v, finalizeAndBuffer st (completeSpan env.heap span (.vstr "[Generator]") env.endNow))
      else
        (.ret v, finalizeAndBuffer st (completeSpan env.heap span v env.endNow))
    | .promise p =>
      if f.isGenerator then
        (.promise p, finalizeAndBuffer st (completeSpan env.heap span (.vstr "[Generator]") env.endNow))
      else
        match p with
        | .ok v =>
          (.promise (.ok v), finalizeAndBuffer st (completeSpan env.heap span v env.endNow))
        | .error e =>
          (.promise (.error e), finalizeAndBuffer st (failSpan env.heap span e env.endNow))
    | .thrown e =>
      (.thrown e, finalizeAndBuffer st (failSpan env.heap span e env.endNow))

/-- The callable `__flightbox_wrap` returns: the wrapped behavior plus the
`name` and `length` properties copied from the original by
`Object.defineProperty`. -/
structure WrappedFunc where
  name : String
  length : Nat
  call : CausCfg → HostEnv → JsVal → JsVal → TraceState → CallResult × TraceState

/-- `__flightbox_wrap(fn, meta)`. -/
def flightboxWrap (f : JsFunc) (meta : SpanMeta) : WrappedFunc :=
  { name := f.name
    length := f.length
    call := fun cfg env recv args st => wrapCall cfg f meta env recv args st }

-- ── Browser cooperative context stack (packages/sdk/src/browser.ts) ───

/-- One pushed stack entry.  `token` models the object identity of the
pushed context (`===` in `popContext`); value-equal contexts pushed by
different `inject` calls are distinct entries. -/
structure StackEntry where
  token : Nat
  ctx : SpanContext
deriving DecidableEq

/-- The explicit call stack; the head is the top (`callStack.length - 1`). -/
abbrev CallStack := List StackEntry

/-- `extract()`: the top of the call stack, if any. -/
def extract (s : CallStack) : Option SpanContext :=
  match s with
  | [] => none
  | e :: _ => some e.ctx

/-- `popContext(ctx)`: search from the top of the stack for the specific
pushed entry by identity and splice it out; entries above and below it are
untouched.  The entry might not be on top, since sibling calls may have
pushed or popped while an async body was suspended. -/
def popContext (e : StackEntry) : CallStack → CallStack
  | [] => []
  | x :: rest => if x.token = e.token then rest else x :: popContext e rest

/-- `inject(context, fn)` for a synchronously settling body: push the entry,
run the body on the new stack, and pop the specific entry on both the
return and the throw path.  The body is modelled as a function from the
stack it observes to its outcome and the stack it leaves behind (it may
itself push and pop via nested injection). -/
def injectSync {ε α : Type} (e : StackEntry)
    (body : CallStack → Except ε α × CallStack) (s : CallStack) :
    Except ε α × CallStack :=
  let (r, s1) := body (e :: s)
  (r, popContext e s1)

-- ── Flush buffer (packages/sdk/src/buffer.ts) ─────────────────────────

/-- Result of one `drain()` call: the in-memory buffer afterwards, the
batch handed to `flushToParquet` (if any), and the optional diagnostic
(`console.error` under the debug flag) — the only surfacing of a failure. -/
structure DrainResult (σ : Type) where
  newBuffer : List σ
  attempted : Option (List σ)
  diagnostic : Option String
deriving DecidableEq

/-- `drain()`: an empty buffer returns at once; otherwise the whole buffer
is taken as the batch and flushed.  `arrived` are spans buffered by
concurrent calls while the flush was awaited; on failure the batch is
re-queued in front of them (`buffer.unshift(...batch)`) and the error is
swallowed, surfaced only as the optional diagnostic. -/
def drain {σ : Type} (buffer : List σ) (flush : List σ → Except String Unit)
    (arrived : List σ) (debug : Bool) : DrainResult σ :=
  if buffer.isEmpty then { newBuffer := buffer, attempted := none, diagnostic := none }
  else
    match flush buffer with
    | .ok () => { newBuffer := arrived, attempted := some buffer, diagnostic := none }
    | .error e =>
      { newBuffer := buffer ++ arrived
        attempted := some buffer
        diagnostic := if debug then some e else none }

-- ── Entity-timeline diffs (computeSnapshotDiffs of mcp-server/tools.ts) ─

/-- A persisted JSON-text field as the query side sees it: absent (null or
empty), present but not parseable, or parsing to a JSON value. -/
inductive FieldVal where
  | absent
  | invalid
  | val (j : Json)
deriving DecidableEq

/-- The slice of an `EntityEventRow` that `computeSnapshotDiffs` reads; the
remaining row fields are carried through unchanged by its spread copy. -/
structure EvRow where
  entity_id : Option String
  changes : FieldVal
  snapshot : FieldVal
deriving DecidableEq

/-- The per-entity grouping key: `ev.entity_id ?? "__no_id__"`. -/
def entityKey (ev : EvRow) : String :=
  ev.entity_id.getD "__no_id__"

/-- The explicit-changes branch guard: `ev.changes` is truthy, parses, and
is a record (object, not null, not an array). -/
def changesRecord : FieldVal → Option JFields
  | .val (.jobj fs) => some fs
  | _ => none

/-- `JSON.parse(ev.snapshot)` when the field is truthy and parses, whatever
the parsed value (the explicit-changes branch stores it unchecked). -/
def parsedSnapshot : FieldVal → Option Json
  | .val j => some j
  | _ => none

/-- The snapshot-path guard: the snapshot parses to a record. -/
def snapshotRecord : FieldVal → Option JFields
  | .val (.jobj fs) => some fs
  | _ => none

/-- JavaScript truthiness on a parsed JSON value (`if (!prev)`). -/
def jsFalsy : Json → Bool
  | .jnull => true
  | .jbool b => !b
  | .jnum n => n == 0
  | .jstr s => s.isEmpty
  | _ => false

/-- `Object.keys` on a parsed JSON value: field keys of an object, index
strings of a string, nothing otherwise. -/
def jsKeys : Json → List String
  | .jobj fs => jfKeys fs
  | .jstr s => (List.range s.length).map toString
  | _ => []

/-- Property access `v[key]` on a parsed JSON value, `none` standing for
`undefined`. -/
def jsGet : Json → String → Option Json
  | .jobj fs, k => jfLookup fs k
  | .jstr s, k =>
    (match k.toNat? with
      | some i =>
        if toString i = k ∧ i < s.length then (s.toList.get? i).map (fun c => .jstr (String.singleton c))
        else none
      | none => none)
  | _, _ => none

/-- Order-preserving deduplication, the iteration order of
`new Set([...a, ...b])`: first occurrences kept. -/
def dedupFirst (seen : List String) : List String → List String
  | [] => []
  | x :: xs => if x ∈ seen then dedupFirst seen xs else x :: dedupFirst (x :: seen) xs

/-- One `{from, to}` cell of a computed diff (`?? null` coalesces an absent
side to null). -/
def diffCell (fromV toV : Option Json) : Json :=
  .jobj (.cons "from" (fromV.getD .jnull) (.cons "to" (toV.getD .jnull) .nil))

/-- Build the computed diff over a key list: a key contributes exactly when
the `JSON.stringify` renderings of the two sides differ (`undefined` on one
side always differs from a present value). -/
def keyDiffOver (prev curr : Json) : List String → JFields
  | [] => .nil
  | k :: ks =>
    let fromV := jsGet prev k
    let toV := jsGet curr k
    if (fromV.map renderJson) = (toV.map renderJson) then keyDiffOver prev curr ks
    else .cons k (diffCell fromV toV) (keyDiffOver prev curr ks)

/-- The key-by-key diff of two consecutive snapshots: iterate the de-duplicated
union of both key sets in first-come order. -/
def keyDiff (prev curr : Json) : JFields :=
  keyDiffOver prev curr (dedupFirst [] (jsKeys prev ++ jsKeys curr))

/-- One step of `computeSnapshotDiffs`: the diff attached to `ev` and the
updated previous-snapshot map.  Explicit parseable record `changes` win and
update the previous snapshot from the event's own snapshot when that
parses; otherwise the diff is computed against the stored previous
snapshot, which the event's record snapshot replaces. -/
def diffOne (prevMap : List (String × Json)) (ev : EvRow) :
    Option JFields × List (String × Json) :=
  let key := entityKey ev
  match changesRecord ev.changes with
  | some fs =>
    let prevMap :=
      match parsedSnapshot ev.snapshot with
      | some j => setEntry prevMap key j
      | none => prevMap
    (some fs, prevMap)
  | none =>
    match snapshotRecord ev.snapshot with
    | none => (none, prevMap)
    | some cur =>
      let prev := prevMap.lookup key
      let prevMap := setEntry prevMap key (.jobj cur)
      match prev with
      | none => (none, prevMap)
      | some p =>
        if jsFalsy p then (none, prevMap)
        else
          let d := keyDiff p (.jobj cur)
          (if d = .nil then none else some d, prevMap)

/-- The fold of `computeSnapshotDiffs` over the time-ordered event list,
threading the per-entity previous-snapshot map. -/
def snapshotDiffsFrom (prevMap : List (String × Json)) :
    List EvRow → List (EvRow × Option JFields)
  | [] => []
  | ev :: rest =>
    let (d, prevMap) := diffOne prevMap ev
    (ev, d) :: snapshotDiffsFrom prevMap rest

/-- `computeSnapshotDiffs(events)`: annotate each event of the ascending
timeline with its diff. -/
def computeSnapshotDiffs (events : List EvRow) : List (EvRow × Option JFields) :=
  snapshotDiffsFrom [] events

-- ── Oscillation detection (detectEntityOscillation of tools.ts) ───────

/-- `LAG(field_value) OVER (ORDER BY event_at)` at position `i`. -/
def lagAt (xs : List String) (i : Nat) : Option String :=
  if i = 0 then none else xs.get? (i - 1)

/-- `LEAD(field_value) OVER (ORDER BY event_at)` at position `i`. -/
def leadAt (xs : List String) (i : Nat) : Option String :=
  xs.get? (i + 1)

/-- The `reversals` predicate of the SQL: both neighbors present, equal to
each other, and different from the value at the position. -/
def isReversalAt (xs : List String) (i : Nat) : Bool :=
  match xs.get? i, lagAt xs i, leadAt xs i with
  | some v, some pv, some nv => pv == nv && pv != v
  | _, _, _ => false

/-- `COUNT(*)` of the reversal rows of one subject's time-ordered value
sequence. -/
def countReversals (xs : List String) : Nat :=
  ((List.range xs.length).filter (fun i => isReversalAt xs i)).length

/-- `HAVING COUNT(*) >= Math.max(1, params.min_flips)`: whether one
subject's sequence is reported as oscillating at the given threshold (a
subject with no reversal rows never appears in the grouped result). -/
def flaggedOscillating (xs : List String) (minFlips : Int) : Bool :=
  max 1 minFlips ≤ (countReversals xs : Int)

-- ── Concrete fixtures used by counterexamples and witnesses ───────────

/-- A minimal call-site description. -/
def exMeta : SpanMeta := { name := "f", module := "m", line := 1 }

/-- A span opened for a call with a `null` argument list rendering. -/
def exSpan : Span := createSpan [] exMeta none .vnull "s1" "t1" 0

/-- A heap holding the self-referential object of the serializer test:
`obj = \x7b a: 1, self: obj \x7d`. -/
def cycHeap : Heap := [(0, .obj [("a", .vnum 1), ("self", .vref 0)])]

/-- A heap holding a three-element all-primitive array. -/
def primArrHeap : Heap := [(0, .arr [.vnum 1, .vnum 2, .vnum 3])]

/-- Serializer options with a breadth cap of two. -/
def breadth2 : SerOpts := { defaultOptions with maxBreadth := 2 }

/-- A valid inbound lineage stamp with `hop = 1`, `max_hops = 2` under the
default message key. -/
def exPayloadHop1 : Json :=
  .jobj (.cons "_fb" (.jobj
    (.cons "trace_id" (.jstr "t0")
    (.cons "span_id" (.jstr "s0")
    (.cons "actor_system" (.jstr "m#f")
    (.cons "hop" (.jnum 1)
    (.cons "max_hops" (.jnum 2)
    (.cons "subject_entity" (.jobj (.cons "type" (.jstr "AGENT") (.cons "id" (.jstr "a1") .nil)))
    .nil))))))) .nil)

/-- The same stamp with `hop = 5`, over its `max_hops = 2` budget. -/
def exPayloadHop5 : Json :=
  .jobj (.cons "_fb" (.jobj
    (.cons "trace_id" (.jstr "t0")
    (.cons "span_id" (.jstr "s0")
    (.cons "actor_system" (.jstr "m#f")
    (.cons "hop" (.jnum 5)
    (.cons "max_hops" (.jnum 2)
    (.cons "subject_entity" (.jobj (.cons "type" (.jstr "AGENT") (.cons "id" (.jstr "a1") .nil)))
    .nil))))))) .nil)

/-- The parsed form of `exPayloadHop1`. -/
def exLineageHop1 : LineagePayload :=
  { trace_id := "t0", span_id := "s0", subject_type := "AGENT",
    subject_id := some "a1", actor_system := "m#f", hop := 1, max_hops := 2 }

/-- The parsed form of `exPayloadHop5`. -/
def exLineageHop5 : LineagePayload :=
  { trace_id := "t0", span_id := "s0", subject_type := "AGENT",
    subject_id := some "a1", actor_system := "m#f", hop := 5, max_hops := 2 }

/-- An SDK configuration with the default lineage settings. -/
def exCfg : CausCfg :=
  { enabled := true,
    lineage := { maxHops := 2, requireBlastScope := true, messageKey := "_fb" } }

/-- A lineage store with one open span "S". -/
def exLinSt : LinState := { buckets := [("S", {})], actors := [("S", "m#f")] }

/-- The receiving span's context. -/
def exActive : SpanContext := { trace_id := "T", span_id := "S" }

/-- The received lists of a span in a lineage store, when it is open. -/
def recvListOf (st : LinState) (spanId : String) : Option (List LineageRecord) :=
  (st.buckets.lookup spanId).map (fun b => b.lineage_recv)

/-- First timeline event: snapshot `\x7b a: 1, b: 2 \x7d`. -/
def exEv1 : EvRow :=
  { entity_id := some "e1", changes := .absent,
    snapshot := .val (.jobj (.cons "a" (.jnum 1) (.cons "b" (.jnum 2) .nil))) }

/-- Second timeline event for the same entity: snapshot `\x7b a: 1, b: 3 \x7d`. -/
def exEv2 : EvRow :=
  { entity_id := some "e1", changes := .absent,
    snapshot := .val (.jobj (.cons "a" (.jnum 1) (.cons "b" (.jnum 3) .nil))) }

/-- An event carrying explicit parseable changes. -/
def exEvChanges : EvRow :=
  { entity_id := some "e1",
    changes := .val (.jobj (.cons "b" (.jstr "manual") .nil)),
    snapshot := .absent }

-- ── Shared helper lemmas ──────────────────────────────────────────────

/-- Looking an association list up at the key just set yields the value set. -/
theorem lookup_setEntry_self {α : Type} (l : List (String × α)) (k : String) (v : α) :
    (setEntry l k v).lookup k = some v := by
  induction l with
  | nil => simp [setEntry, List.lookup]
  | cons hd tl ih =>
    obtain ⟨k0, v0⟩ := hd
    by_cases hk : k0 = k
    · subst hk
      simp [setEntry, List.lookup]
    · have hbeq : (k == k0) = false := beq_false_of_ne (Ne.symm hk)
      simp [setEntry, hk, List.lookup, ih, hbeq]

/-- `serializeElems` yields one rendered member per input member. -/
theorem serializeElems_length (f : JsVal → List Nat → Rendered × List Nat)
    (l : List JsVal) (seen : List Nat) :
    ((serializeElems f l seen).1).length = l.length := by
  induction l generalizing seen with
  | nil => simp [serializeElems, RArr.length]
  | cons e es ih => simp [serializeElems, RArr.length, ih]; ring

/-- `serializeFields` yields one rendered field per input field. -/
theorem serializeFields_length (f : JsVal → List Nat → Rendered × List Nat)
    (l : List (String × JsVal)) (seen : List Nat) :
    ((serializeFields f l seen).1).length = l.length := by
  induction l generalizing seen with
  | nil => simp [serializeFields, RFields.length]
  | cons kv rest ih =>
    obtain ⟨k, v⟩ := kv
    simp [serializeFields, RFields.length, ih]; ring

/-- Pushing one member grows a rendered array by one. -/
theorem rarr_snoc_length : ∀ (a : RArr) (r : Rendered),
    (a.snoc r).length = a.length + 1
  | .nil, r => by simp [RArr.snoc, RArr.length]
  | .cons hd tl, r => by
    simp [RArr.snoc, RArr.length, rarr_snoc_length tl r]
    ring

/-- Adding one field grows a rendered object by one. -/
theorem rfields_snoc_length : ∀ (a : RFields) (k : String) (r : Rendered),
    (a.snoc k r).length = a.length + 1
  | .nil, _, _ => by simp [RFields.snoc, RFields.length]
  | .cons k0 v0 tl, k, r => by
    simp [RFields.snoc, RFields.length, rfields_snoc_length tl k r]
    ring

-- ── Claim theorems ────────────────────────────────────────────────────

/-- C1: for every wrapped callable and every input, in every configuration
(enabled or disabled), the function `__flightbox_wrap` returns yields the
same observable call result — same return value, same thrown value, same
eventual settlement — as calling the unwrapped callable at the same
receiver and arguments, and it carries the original's name and declared
arity. -/
theorem wrap_preserves_observable_behavior :
    ∀ (f : JsFunc) (meta : SpanMeta) (cfg : CausCfg) (env : HostEnv)
      (recv args : JsVal) (st : TraceState),
      (flightboxWrap f meta).name = f.name ∧
      (flightboxWrap f meta).length = f.length ∧
      ((flightboxWrap f meta).call cfg env recv args st).1 = f.call recv args := by
  intro f meta cfg env recv args st
  refine ⟨rfl, rfl, ?_⟩
  show (wrapCall cfg f meta env recv args st).1 = f.call recv args
  unfold wrapCall
  by_cases hcfg : cfg.enabled
  · simp only [hcfg, not_true_eq_false, if_false]
    cases hc : f.call recv args with
    | ret v => cases f.isGenerator <;> simp [hc]
    | promise p => cases f.isGenerator <;> [cases p <;> simp [hc]; simp [hc]]
    | thrown e => simp [hc]
  · simp [hcfg]

/-- C2 counterexample: a span finalized by `completeSpan` for a successful
call whose result the serializer renders as `null` (here `undefined`) ends
with `output` and `error` both null, refuting "exactly one of output and
error is non-null after finalization". -/
theorem span_completion_both_null_counterexample :
    (completeSpan [] exSpan .vundef 5).output = none ∧
    (completeSpan [] exSpan .vundef 5).error = none ∧
    (completeSpan [] exSpan .vundef 5).ended_at = some 5 := by
  refine ⟨?_, ?_, ?_⟩ <;> decide

/-- C2 amended: while a span is open both `output` and `error` are null;
finalization touches exactly one of them — `completeSpan` writes the
serialized result into `output`, `failSpan` the serialized thrown value
into `error` — so after finalization exactly one of the two is non-null
whenever the serializer renders the finalizing value non-null; when it
renders null (e.g. a successful call returning `undefined`), both stay
null. -/
theorem span_output_error_invariant_amended :
    (∀ (h : Heap) (meta : SpanMeta) (parent : Option SpanContext) (args : JsVal)
        (sid tid : String) (now : Int),
      (createSpan h meta parent args sid tid now).output = none ∧
      (createSpan h meta parent args sid tid now).error = none) ∧
    (∀ (h : Heap) (s : Span) (r : JsVal) (now : Int), s.error = none →
      (completeSpan h s r now).error = none ∧
      (completeSpan h s r now).output = serialize h r defaultOptions ∧
      (serialize h r defaultOptions ≠ none →
        (completeSpan h s r now).output ≠ none ∧ (completeSpan h s r now).error = none)) ∧
    (∀ (h : Heap) (s : Span) (e : JsVal) (now : Int), s.output = none →
      (failSpan h s e now).output = none ∧
      (failSpan h s e now).error = serialize h e defaultOptions ∧
      (serialize h e defaultOptions ≠ none →
        (failSpan h s e now).error ≠ none ∧ (failSpan h s e now).output = none)) := by
  refine ⟨?_, ?_, ?_⟩
  · intro h meta parent args sid tid now
    exact ⟨rfl, rfl⟩
  · intro h s r now hs
    exact ⟨hs, rfl, fun hne => ⟨hne, hs⟩⟩
  · intro h s e now hs
    exact ⟨hs, rfl, fun hne => ⟨hne, hs⟩⟩

/-- Witness for the amended C2 invariant at a concrete finalized span. -/
theorem span_output_error_invariant_amended_witness :
    exSpan.error = none ∧
    ((completeSpan [] exSpan (.vnum 7) 5).output ≠ none ∧
      (completeSpan [] exSpan (.vnum 7) 5).error = none) := by
  have h := span_output_error_invariant_amended
  exact ⟨by decide, (h.2.1 [] exSpan (.vnum 7) 5 (by decide)).2.2 (by decide)⟩

/-- C3: for every payload carrying a valid lineage record received via
`runWithLineage` while a span is active: a record within its hop budget
(`hop < max_hops`, which includes `hop = max_hops - 1`) sets the receiving
span's inbound hop to `hop + 1`, logs the record with evidence `exact`, and
runs the body under the context `(record.trace_id, record.span_id)`; a
record at or over budget (`hop ≥ max_hops`) is logged with evidence `gap`
and the body runs with the ambient context unchanged and the inbound hop
untouched. -/
theorem runWithLineage_hop_budget :
    ∀ (cfg : CausCfg) (a : SpanContext) (payload : Json) (optKey : Option String)
      (st : LinState) (now : Int) (lineage : LineagePayload) (b : SpanLineage),
      parseLineage payload (optKey.getD cfg.lineage.messageKey) = some lineage →
      st.buckets.lookup a.span_id = some b →
      ((lineage.hop < lineage.max_hops →
        (runWithLineage cfg (some a) payload optKey st now).1
            = some { trace_id := lineage.trace_id, span_id := lineage.span_id } ∧
        getInboundHop (runWithLineage cfg (some a) payload optKey st now).2 a.span_id
            = lineage.hop + 1 ∧
        recvListOf (runWithLineage cfg (some a) payload optKey st now).2 a.span_id
            = some (b.lineage_recv ++ [⟨lineage, now, .exact⟩])) ∧
      (lineage.max_hops ≤ lineage.hop →
        (runWithLineage cfg (some a) payload optKey st now).1 = some a ∧
        recvListOf (runWithLineage cfg (some a) payload optKey st now).2 a.span_id
            = some (b.lineage_recv ++ [⟨lineage, now, .gap⟩]) ∧
        getInboundHop (runWithLineage cfg (some a) payload optKey st now).2 a.span_id
            = getInboundHop st a.span_id)) := by
  intro cfg a payload optKey st now lineage b hparse hbucket
  have hb2 : (setInboundHop st a.span_id (lineage.hop + 1)).buckets.lookup a.span_id = some b :=
    hbucket
  constructor
  · intro hlt
    have hnle : ¬ lineage.max_hops ≤ lineage.hop := not_le.mpr hlt
    simp only [runWithLineage, hparse, hnle, if_false]
    refine ⟨trivial, ?_, ?_⟩
    · simp [recordRecv, setInboundHop, hbucket, getInboundHop, lookup_setEntry_self]
    · simp [recordRecv, setInboundHop, hbucket, recvListOf, lookup_setEntry_self]
  · intro hle
    simp only [runWithLineage, hparse, if_pos hle]
    refine ⟨trivial, ?_, ?_⟩
    · simp [recordRecv, hbucket, recvListOf, lookup_setEntry_self]
    · simp [recordRecv, hbucket, getInboundHop]

/-- Witness for C3: the concrete `hop = max_hops - 1` stamp propagates with
evidence `exact` and replaces the context, and the concrete over-budget
stamp is recorded `gap` with the context unchanged. -/
theorem runWithLineage_hop_budget_witness :
    ((runWithLineage exCfg (some exActive) exPayloadHop1 none exLinSt 99).1
        = some { trace_id := "t0", span_id := "s0" } ∧
      getInboundHop (runWithLineage exCfg (some exActive) exPayloadHop1 none exLinSt 99).2 "S" = 2 ∧
      recvListOf (runWithLineage exCfg (some exActive) exPayloadHop1 none exLinSt 99).2 "S"
        = some [⟨exLineageHop1, 99, .exact⟩]) ∧
    ((runWithLineage exCfg (some exActive) exPayloadHop5 none exLinSt 99).1 = some exActive ∧
      recvListOf (runWithLineage exCfg (some exActive) exPayloadHop5 none exLinSt 99).2 "S"
        = some [⟨exLineageHop5, 99, .gap⟩] ∧
      getInboundHop (runWithLineage exCfg (some exActive) exPayloadHop5 none exLinSt 99).2 "S"
        = getInboundHop exLinSt "S") := by
  have h1 := runWithLineage_hop_budget exCfg exActive exPayloadHop1 none exLinSt 99
    exLineageHop1 {} (by decide) (by decide)
  have h5 := runWithLineage_hop_budget exCfg exActive exPayloadHop5 none exLinSt 99
    exLineageHop5 {} (by decide) (by decide)
  exact ⟨h1.1 (by decide), h5.2 (by decide)⟩

/-- C4 counterexample: a three-element all-primitive array serialized with
a breadth cap of two loses its third (primitive) member and gains the
"1 more" marker, refuting "primitive members are always included in the
output regardless of how many there are" and "only collections exceeding
the cap in complex members get the marker". -/
theorem serializer_breadth_counterexample :
    serialize primArrHeap (.vref 0) breadth2 = some "[1,2,\"... 1 more\"]" ∧
    (serializeValue primArrHeap breadth2 breadth2.maxDepth (.vref 0) []).1
      = .rarr (.cons (.rnum 1) (.cons (.rnum 2) (.cons (.rstr "... 1 more") .nil))) := by
  constructor <;> decide

/-- C4 amended: every member of an array or plain object — primitive or
complex alike — counts against the max-breadth cap: the serializer keeps
exactly the first `maxBreadth` members, and appends the single "N more"
marker exactly when the collection has more than `maxBreadth` members of
any kind, so the rendered member count is `min length maxBreadth`, plus one
for the marker when over the cap. -/
theorem serializer_breadth_amended :
    ∀ (h : Heap) (opts : SerOpts) (d id : Nat) (seen : List Nat),
      id ∉ seen →
      (∀ elems, h.lookup id = some (.arr elems) →
        ∃ items seen2,
          serializeValue h opts (d + 1) (.vref id) seen = (.rarr items, seen2) ∧
          items.length
            = min elems.length opts.maxBreadth
              + (if opts.maxBreadth < elems.length then 1 else 0)) ∧
      (∀ fields, h.lookup id = some (.obj fields) →
        ∃ flds seen2,
          serializeValue h opts (d + 1) (.vref id) seen = (.robj flds, seen2) ∧
          flds.length
            = min fields.length opts.maxBreadth
              + (if opts.maxBreadth < fields.length then 1 else 0)) := by
  intro h opts d id seen hid
  constructor
  · intro elems hlook
    simp only [serializeValue, hid, if_false, hlook]
    by_cases hover : opts.maxBreadth < elems.length
    · refine ⟨_, _, rfl, ?_⟩
      simp only [hover, if_true, rarr_snoc_length, serializeElems_length, List.length_take]
      omega
    · refine ⟨_, _, rfl, ?_⟩
      simp only [hover, if_false, serializeElems_length, List.length_take]
      omega
  · intro fields hlook
    simp only [serializeValue, hid, if_false, hlook]
    by_cases hover : opts.maxBreadth < fields.length
    · refine ⟨_, _, rfl, ?_⟩
      simp only [hover, if_true, rfields_snoc_length, serializeFields_length, List.length_take]
      omega
    · refine ⟨_, _, rfl, ?_⟩
      simp only [hover, if_false, serializeFields_length, List.length_take]
      omega

/-- Witness for the amended C4 breadth accounting on the concrete
three-element primitive array under a cap of two. -/
theorem serializer_breadth_amended_witness :
    ∃ items seen2,
      serializeValue primArrHeap breadth2 5 (.vref 0) [] = (.rarr items, seen2) ∧
      items.length = min 3 breadth2.maxBreadth + (if breadth2.maxBreadth < 3 then 1 else 0) := by
  have h := (serializer_breadth_amended primArrHeap breadth2 4 0 [] (by decide)).1
    [.vnum 1, .vnum 2, .vnum 3] (by rfl)
  simpa using h

/-- Only the absent value renders as `undefined`: every other input value
produces a rendering `JSON.stringify` turns into a string. -/
theorem serializeValue_ne_rundef (h : Heap) (opts : SerOpts) (depth : Nat)
    (v : JsVal) (seen : List Nat) (hv : v ≠ .vundef) :
    (serializeValue h opts depth v seen).1 ≠ .rundef := by
  cases v with
  | vnull => simp [serializeValue]
  | vundef => exact absurd rfl hv
  | vbool b => simp [serializeValue]
  | vnum n => simp [serializeValue]
  | vstr s =>
    simp only [serializeValue]
    split <;> simp
  | vref id =>
    simp only [serializeValue]
    by_cases hid : id ∈ seen
    · simp [hid]
    · simp only [hid, if_false]
      cases hlook : h.lookup id with
      | none => simp
      | some o =>
        cases depth with
        | zero => simp
        | succ d =>
          cases o with
          | arr elems => simp
          | obj fields => simp

/-- A rendering other than `undefined` stringifies to a string. -/
theorem jsStringify_some (r : Rendered) (hr : r ≠ .rundef) :
    jsStringify r = some (jsStringifyStr r) := by
  cases r with
  | rundef => exact absurd rfl hr
  | rnull => rfl
  | rbool b => rfl
  | rnum n => rfl
  | rstr s => rfl
  | rarr xs => rfl
  | robj fs => rfl

/-- C5: serialization is total and cycle-safe — any object reached again
while it is on the identity set of the active recursion path renders as the
circular marker instead of being recursed into; `serialize` yields `null`
exactly on absent input (`undefined`) and a string otherwise, never
failing; and the self-referential object `obj = \x7b a: 1, self: obj \x7d`
terminates with its cycle marked. -/
theorem serializer_total_and_cycle_safe :
    (∀ (h : Heap) (opts : SerOpts) (depth id : Nat) (seen : List Nat),
      id ∈ seen →
      serializeValue h opts depth (.vref id) seen = (.rstr "<circular>", seen)) ∧
    (∀ (h : Heap) (v : JsVal) (opts : SerOpts),
      serialize h v opts = none ↔ v = .vundef) ∧
    serialize cycHeap (.vref 0) defaultOptions
      = some "\x7b\"a\":1,\"self\":\"<circular>\"\x7d" := by
  refine ⟨?_, ?_, by decide⟩
  · intro h opts depth id seen hid
    simp [serializeValue, hid]
  · intro h v opts
    constructor
    · intro hnone
      by_contra hv
      have h1 := serializeValue_ne_rundef h opts opts.maxDepth v [] hv
      have h2 := jsStringify_some (serializeValue h opts opts.maxDepth v []).1 h1
      cases v with
      | vundef => exact hv rfl
      | vnull => rw [show serialize h .vnull opts
          = jsStringify (serializeValue h opts opts.maxDepth .vnull []).1 from rfl, h2] at hnone
                 exact Option.noConfusion hnone
      | vbool b => rw [show serialize h (.vbool b) opts
          = jsStringify (serializeValue h opts opts.maxDepth (.vbool b) []).1 from rfl, h2] at hnone
                   exact Option.noConfusion hnone
      | vnum n => rw [show serialize h (.vnum n) opts
          = jsStringify (serializeValue h opts opts.maxDepth (.vnum n) []).1 from rfl, h2] at hnone
                  exact Option.noConfusion hnone
      | vstr s => rw [show serialize h (.vstr s) opts
          = jsStringify (serializeValue h opts opts.maxDepth (.vstr s) []).1 from rfl, h2] at hnone
                  exact Option.noConfusion hnone
      | vref id => rw [show serialize h (.vref id) opts
          = jsStringify (serializeValue h opts opts.maxDepth (.vref id) []).1 from rfl, h2] at hnone
                   exact Option.noConfusion hnone
    · intro hv
      subst hv
      rfl

/-- Witness for C5 at concrete inputs: a tracked id renders circular, and a
defined primitive input is never rendered as `null`. -/
theorem serializer_total_and_cycle_safe_witness :
    serializeValue [] defaultOptions 3 (.vref 0) [0] = (.rstr "<circular>", [0]) ∧
    (serialize [] (.vnum 1) defaultOptions = none ↔ (JsVal.vnum 1) = .vundef) := by
  exact ⟨serializer_total_and_cycle_safe.1 [] defaultOptions 3 0 [0] (by decide),
    serializer_total_and_cycle_safe.2.1 [] (.vnum 1) defaultOptions⟩

/-- C6: the explicit-context-stack strategy satisfies the propagation
contract — (i) inside the body's dynamic extent `extract()` observes
exactly the injected context; (ii) at settlement the specific pushed entry
is removed by identity even when sibling calls left or removed entries
above it while the body was suspended, all other entries surviving in
order, so a stack whose siblings have themselves restored returns to
exactly its pre-inject state; (iii) a synchronously settling body — by
return or by throw — restores the prior stack exactly; and (iv) the same
holds through nested injection. -/
theorem context_stack_inject_restores :
    (∀ (e : StackEntry) (s : CallStack), extract (e :: s) = some e.ctx) ∧
    (∀ (e : StackEntry) (a b : CallStack),
      e.token ∉ a.map StackEntry.token →
      popContext e (a ++ e :: b) = a ++ b) ∧
    (∀ (ε α : Type) (e : StackEntry) (body : CallStack → Except ε α × CallStack)
        (s : CallStack) (r : Except ε α),
      body (e :: s) = (r, e :: s) →
      injectSync e body s = (r, s)) ∧
    (∀ (ε α : Type) (e1 e2 : StackEntry)
        (body : CallStack → Except ε α × CallStack) (s : CallStack) (r : Except ε α),
      body (e2 :: e1 :: s) = (r, e2 :: e1 :: s) →
      injectSync e1 (fun s1 => injectSync e2 body s1) s = (r, s)) := by
  have hpop_top : ∀ (e : StackEntry) (s : CallStack), popContext e (e :: s) = s := by
    intro e s
    simp [popContext]
  have hpop : ∀ (e : StackEntry) (a b : CallStack),
      e.token ∉ a.map StackEntry.token → popContext e (a ++ e :: b) = a ++ b := by
    intro e a b hna
    induction a with
    | nil => simpa using hpop_top e b
    | cons x xs ih =>
      have hx : ¬ x.token = e.token := by
        intro hx
        exact hna (by simp [hx])
      have hxs : e.token ∉ xs.map StackEntry.token := by
        intro hmem
        exact hna (by simp [hmem])
      simp [popContext, hx, ih hxs]
  refine ⟨?_, hpop, ?_, ?_⟩
  · intro e s
    rfl
  · intro ε α e body s r hbody
    simp [injectSync, hbody, hpop_top]
  · intro ε α e1 e2 body s r hbody
    simp [injectSync, hbody, hpop_top]

/-- Witness for C6 at concrete stacks: extraction of an injected context;
identity removal of a buried entry under sibling interleaving; and a
synchronously-settling nested injection restoring the original stack. -/
theorem context_stack_inject_restores_witness :
    extract ({ token := 1, ctx := { trace_id := "t", span_id := "s" } } :: [])
      = some { trace_id := "t", span_id := "s" } ∧
    popContext { token := 1, ctx := { trace_id := "t", span_id := "s" } }
      ([{ token := 2, ctx := { trace_id := "t2", span_id := "s2" } }]
        ++ { token := 1, ctx := { trace_id := "t", span_id := "s" } }
          :: [{ token := 3, ctx := { trace_id := "t3", span_id := "s3" } }])
      = [{ token := 2, ctx := { trace_id := "t2", span_id := "s2" } },
         { token := 3, ctx := { trace_id := "t3", span_id := "s3" } }] ∧
    injectSync { token := 1, ctx := { trace_id := "t", span_id := "s" } }
      (fun s1 => injectSync { token := 2, ctx := { trace_id := "t2", span_id := "s2" } }
        (fun s2 => ((Except.ok 42 : Except Unit Nat), s2)) s1) []
      = (Except.ok 42, []) := by
  refine ⟨context_stack_inject_restores.1 _ _, ?_, ?_⟩
  · exact context_stack_inject_restores.2.1 _ _ _ (by decide)
  · exact context_stack_inject_restores.2.2.2 Unit Nat _ _ _ [] (Except.ok 42) rfl

/-- C7: in the entity timeline, an event with parseable explicit changes
gets those changes as its diff, at every position and whatever previous
snapshots were seen; and an event without usable changes whose snapshot is
a record is diffed key-by-key against the previous same-entity record
snapshot — in particular, for an entity's first two events the second
event's diff is exactly the key-wise difference of the two snapshots (null
when nothing differs). -/
theorem snapshot_diffs_changes_override_and_consecutive :
    (∀ (prevMap : List (String × Json)) (events : List EvRow) (i : Nat)
        (ev : EvRow) (fs : JFields),
      events.get? i = some ev →
      changesRecord ev.changes = some fs →
      (snapshotDiffsFrom prevMap events).get? i = some (ev, some fs)) ∧
    (∀ (e1 e2 : EvRow) (p c : JFields),
      entityKey e1 = entityKey e2 →
      e1.snapshot = .val (.jobj p) →
      changesRecord e2.changes = none →
      e2.snapshot = .val (.jobj c) →
      (computeSnapshotDiffs [e1, e2]).get? 1 =
        some (e2, if keyDiff (.jobj p) (.jobj c) = .nil then none
                  else some (keyDiff (.jobj p) (.jobj c)))) := by
  constructor
  · intro prevMap events
    induction events generalizing prevMap with
    | nil => intro i ev fs hget; simp at hget
    | cons e0 rest ih =>
      intro i ev fs hget hch
      cases i with
      | zero =>
        simp only [List.get?] at hget
        cases hget
        simp only [snapshotDiffsFrom, diffOne, hch, List.get?]
      | succ n =>
        simp only [List.get?] at hget
        simp only [snapshotDiffsFrom, List.get?]
        exact ih _ n ev fs hget hch
  · intro e1 e2 p c hkey hs1 hch2 hs2
    have hstep1 : (diffOne [] e1).2 = [(entityKey e1, Json.jobj p)] := by
      cases hch1 : changesRecord e1.changes with
      | some g => simp [diffOne, hch1, hs1, parsedSnapshot, setEntry]
      | none => simp [diffOne, hch1, hs1, parsedSnapshot, snapshotRecord, setEntry, List.lookup]
    simp only [computeSnapshotDiffs, snapshotDiffsFrom]
    rw [hstep1]
    have hlook : (List.lookup (entityKey e2) [(entityKey e1, Json.jobj p)]) = some (Json.jobj p) := by
      simp [List.lookup, hkey]
    simp only [diffOne, hch2, hs2, snapshotRecord, hlook, jsFalsy, List.get?]
    simp

/-- Witness for C7: a concrete event with explicit changes keeps them as
its diff, and the second of two concrete snapshot events is diffed
key-by-key against the first. -/
theorem snapshot_diffs_changes_override_and_consecutive_witness :
    (snapshotDiffsFrom [] [exEvChanges]).get? 0
      = some (exEvChanges, some (.cons "b" (.jstr "manual") .nil)) ∧
    (computeSnapshotDiffs [exEv1, exEv2]).get? 1 =
      some (exEv2,
        if keyDiff (.jobj (.cons "a" (.jnum 1) (.cons "b" (.jnum 2) .nil)))
              (.jobj (.cons "a" (.jnum 1) (.cons "b" (.jnum 3) .nil))) = .nil
        then none
        else some (keyDiff (.jobj (.cons "a" (.jnum 1) (.cons "b" (.jnum 2) .nil)))
              (.jobj (.cons "a" (.jnum 1) (.cons "b" (.jnum 3) .nil))))) := by
  refine ⟨?_, ?_⟩
  · exact snapshot_diffs_changes_override_and_consecutive.1 [] [exEvChanges] 0
      exEvChanges (.cons "b" (.jstr "manual") .nil) (by rfl) (by rfl)
  · exact snapshot_diffs_changes_override_and_consecutive.2 exEv1 exEv2
      (.cons "a" (.jnum 1) (.cons "b" (.jnum 2) .nil))
      (.cons "a" (.jnum 1) (.cons "b" (.jnum 3) .nil))
      (by rfl) (by rfl) (by rfl) (by rfl)

/-- C8: oscillation detection counts, per subject, the positions in the
time-ordered value sequence whose immediate predecessor and successor agree
with each other and differ from the value there, and reports a subject
exactly when its reversal count reaches the effective threshold
`max 1 min_flips`; the sequence `[10, 8, 10, 8, 10]` has 3 reversals and is
flagged at every threshold up to 2 (indeed up to 3), while `[1,2,3,4,5]`
has 0 reversals and is never flagged, at any threshold. -/
theorem oscillation_detection_instances :
    countReversals ["10", "8", "10", "8", "10"] = 3 ∧
    countReversals ["1", "2", "3", "4", "5"] = 0 ∧
    (∀ t : Int, t ≤ 2 → flaggedOscillating ["10", "8", "10", "8", "10"] t = true) ∧
    (∀ t : Int, flaggedOscillating ["1", "2", "3", "4", "5"] t = false) := by
  have h3 : countReversals ["10", "8", "10", "8", "10"] = 3 := by decide
  have h0 : countReversals ["1", "2", "3", "4", "5"] = 0 := by decide
  refine ⟨h3, h0, ?_, ?_⟩
  · intro t ht
    simp only [flaggedOscillating, h3, decide_eq_true_eq]
    omega
  · intro t
    simp only [flaggedOscillating, h0, decide_eq_false_iff_not]
    omega

/-- Witness for C8 at the concrete thresholds 2 and 0. -/
theorem oscillation_detection_instances_witness :
    flaggedOscillating ["10", "8", "10", "8", "10"] 2 = true ∧
    flaggedOscillating ["1", "2", "3", "4", "5"] 0 = false := by
  exact ⟨oscillation_detection_instances.2.2.1 2 (by omega),
    oscillation_detection_instances.2.2.2 0⟩

/-- C9: when a flush attempt fails, `drain` re-queues the entire batch in
front of the spans buffered meanwhile — no span of the failed batch is
dropped — returns normally with the failure surfaced only as the optional
debug diagnostic, and a later successful flush of the re-queued buffer
attempts a batch containing every span of the failed one (at-least-once
delivery). -/
theorem drain_requeues_failed_batch :
    ∀ (σ : Type) (buffer arrived : List σ)
      (flush flush2 : List σ → Except String Unit) (e : String) (debug : Bool),
      buffer ≠ [] →
      flush buffer = .error e →
      ((drain buffer flush arrived debug).newBuffer = buffer ++ arrived ∧
       (∀ s ∈ buffer, s ∈ (drain buffer flush arrived debug).newBuffer) ∧
       (drain buffer flush arrived debug).diagnostic = (if debug then some e else none) ∧
       (flush2 (buffer ++ arrived) = .ok () →
         (drain (buffer ++ arrived) flush2 [] debug).newBuffer = [] ∧
         (drain (buffer ++ arrived) flush2 [] debug).attempted = some (buffer ++ arrived) ∧
         ∀ s ∈ buffer, s ∈ buffer ++ arrived)) := by
  intro σ buffer arrived flush flush2 e debug hne hfail
  have hem : buffer.isEmpty = false := by
    cases buffer with
    | nil => exact absurd rfl hne
    | cons x xs => rfl
  have hem2 : (buffer ++ arrived).isEmpty = false := by
    cases buffer with
    | nil => exact absurd rfl hne
    | cons x xs => rfl
  refine ⟨?_, ?_, ?_, ?_⟩
  · simp [drain, hem, hfail]
  · intro s hs
    simp [drain, hem, hfail, List.mem_append, hs]
  · simp [drain, hem, hfail]
  · intro hok
    refine ⟨?_, ?_, ?_⟩
    · simp [drain, hem2, hok]
    · simp [drain, hem2, hok]
    · intro s hs
      exact List.mem_append.mpr (Or.inl hs)

/-- Witness for C9 on a concrete failed flush of `[1, 2]` with `[3]`
arriving meanwhile. -/
theorem drain_requeues_failed_batch_witness :
    (drain [1, 2] (fun _ => Except.error "boom") [3] true).newBuffer = [1, 2] ++ [3] ∧
    (drain [1, 2] (fun _ => Except.error "boom") [3] true).diagnostic = some "boom" ∧
    (drain ([1, 2] ++ [3]) (fun _ => Except.ok ()) [] true).newBuffer = [] ∧
    (drain ([1, 2] ++ [3]) (fun _ => Except.ok ()) [] true).attempted = some ([1, 2] ++ [3]) := by
  have h := drain_requeues_failed_batch Nat [1, 2] [3]
    (fun _ => Except.error "boom") (fun _ => Except.ok ()) "boom" true
    (by decide) rfl
  have h2 := h.2.2.2 rfl
  exact ⟨h.1, by simpa using h.2.2.1, h2.1, h2.2.1⟩

mutual
/-- Stringifying a rendered tree is the canonical rendering of the JSON
value it denotes. -/
theorem jsStringifyStr_eq_render : ∀ (r : Rendered),
    jsStringifyStr r = renderJson (rendToJson r)
  | .rnull => rfl
  | .rundef => rfl
  | .rbool b => rfl
  | .rnum n => rfl
  | .rstr s => rfl
  | .rarr xs => by
    simp only [jsStringifyStr, rendToJson, renderJson, jsStringifyList_eq_render xs]
  | .robj fs => by
    simp only [jsStringifyStr, rendToJson, renderJson, jsStringifyFields_eq_render fs]

/-- Member-wise version of `jsStringifyStr_eq_render` for arrays. -/
theorem jsStringifyList_eq_render : ∀ (xs : RArr),
    jsStringifyList xs = renderJsonList (rendToJsonList xs)
  | .nil => rfl
  | .cons hd tl => by
    simp only [jsStringifyList, rendToJsonList, renderJsonList,
      jsStringifyStr_eq_render hd, jsStringifyList_eq_render tl]

/-- Field-wise version of `jsStringifyStr_eq_render`: the fields
`JSON.stringify` skips are exactly the fields the denotation drops. -/
theorem jsStringifyFields_eq_render : ∀ (fs : RFields),
    jsStringifyFields fs = renderJsonFields (rendToJsonFields fs)
  | .nil => rfl
  | .cons k v tl => by
    by_cases hv : v = .rundef
    · subst hv
      simp only [jsStringifyFields, rendToJsonFields, if_pos rfl]
      exact jsStringifyFields_eq_render tl
    · simp only [jsStringifyFields, rendToJsonFields, if_neg hv, renderJsonFields,
        jsStringifyStr_eq_render v, jsStringifyFields_eq_render tl]
end

/-- C10: whenever `serialize` returns a non-null result, that result is the
canonical JSON rendering of a JSON value — so every persisted
input/output/error field is either null or valid JSON text. -/
theorem serialize_output_is_json :
    ∀ (h : Heap) (v : JsVal) (opts : SerOpts) (s : String),
      serialize h v opts = some s → ∃ j : Json, s = renderJson j := by
  intro h v opts s hs
  refine ⟨rendToJson (serializeValue h opts opts.maxDepth v []).1, ?_⟩
  rw [← jsStringifyStr_eq_render]
  cases v with
  | vundef => exact Option.noConfusion hs
  | vnull =>
    have hne := serializeValue_ne_rundef h opts opts.maxDepth .vnull [] (by simp)
    rw [show serialize h .vnull opts
        = jsStringify (serializeValue h opts opts.maxDepth .vnull []).1 from rfl,
      jsStringify_some _ hne] at hs
    exact (Option.some.injEq _ _ ▸ hs).symm
  | vbool b =>
    have hne := serializeValue_ne_rundef h opts opts.maxDepth (.vbool b) [] (by simp)
    rw [show serialize h (.vbool b) opts
        = jsStringify (serializeValue h opts opts.maxDepth (.vbool b) []).1 from rfl,
      jsStringify_some _ hne] at hs
    exact (Option.some.injEq _ _ ▸ hs).symm
  | vnum n =>
    have hne := serializeValue_ne_rundef h opts opts.maxDepth (.vnum n) [] (by simp)
    rw [show serialize h (.vnum n) opts
        = jsStringify (serializeValue h opts opts.maxDepth (.vnum n) []).1 from rfl,
      jsStringify_some _ hne] at hs
    exact (Option.some.injEq _ _ ▸ hs).symm
  | vstr str =>
    have hne := serializeValue_ne_rundef h opts opts.maxDepth (.vstr str) [] (by simp)
    rw [show serialize h (.vstr str) opts
        = jsStringify (serializeValue h opts opts.maxDepth (.vstr str) []).1 from rfl,
      jsStringify_some _ hne] at hs
    exact (Option.some.injEq _ _ ▸ hs).symm
  | vref id =>
    have hne := serializeValue_ne_rundef h opts opts.maxDepth (.vref id) [] (by simp)
    rw [show serialize h (.vref id) opts
        = jsStringify (serializeValue h opts opts.maxDepth (.vref id) []).1 from rfl,
      jsStringify_some _ hne] at hs
    exact (Option.some.injEq _ _ ▸ hs).symm

/-- Witness for C10 on a concrete serialized object. -/
theorem serialize_output_is_json_witness :
    ∃ j : Json, "\x7b\"a\":1,\"self\":\"<circular>\"\x7d" = renderJson j := by
  exact serialize_output_is_json cycHeap (.vref 0) defaultOptions
    "\x7b\"a\":1,\"self\":\"<circular>\"\x7d" (by decide)

end Flightbox
